import Mathlib

/-!
Shallow embedding of `src/assets/main.cpp` of the `blog` repository.

The program constructs a `const Version` value (declared in `version.h`,
which is generated at build time and not part of the repository's tracked
sources) and issues three `printf` calls:

  printf("package %s\n", version.package);
  printf("git sha = %s\n", version.git_sha1);
  printf("git decription = %s\n", version.git_description);

then returns 0.  We model C strings as `Option String` (`none` standing for
a null `char *`), formatted output as a character-level interpretation of
the format string in which every `%s` directive consumes the next argument
and splices its characters in verbatim, and the process as a small state
machine accumulating the bytes written to standard output.  Passing a null
pointer for a `%s` directive has no defined result, so the formatting
functions land in `Option`'s error branch there.
-/

namespace VersionReport

/-- Modelled from the spec: `version.h` (the `Version` struct and its
build-time field values) is not under the repository's sources; per the
spec, `VersionInfo` is an immutable record of three text fields — package
identifier, revision hash, revision descriptive tag — populated at
construction from build-time values.  Fields are `Option String` because
the source's fields are C pointers to text: `none` models a null pointer,
and the spec's external contract is that all three are non-null. -/
structure Version where
  package : Option String
  git_sha1 : Option String
  git_description : Option String

/-- Modelled from the spec: the build-time values injected by the external
generation step (spec §6) that the `Version` constructor copies into its
fields.  They are external inputs of the whole program. -/
structure BuildValues where
  package : Option String
  git_sha1 : Option String
  git_description : Option String

/-- Modelled from the spec: construction of the `Version` value
(`const Version version;` in `main`) takes no caller-supplied arguments,
never fails, and populates the three fields from the build-time values.
It is therefore a total function of the build values. -/
def constructVersion (b : BuildValues) : Version :=
  { package := b.package
    git_sha1 := b.git_sha1
    git_description := b.git_description }

/-- Character-level model of `printf` format processing, restricted to the
directives the program uses: the format is scanned left to right; the
two-character directive `%s` consumes the next argument and splices its
characters into the output verbatim (the argument is never rescanned for
directives); every other character of the format is emitted literally.
A null (`none`) argument, or a missing argument, for a `%s` directive has
no defined result (`none`: C's undefined behaviour). -/
def formatChars : List Char → List (Option (List Char)) → Option (List Char)
  | [], _ => some []
  | [c], args => (formatChars [] args).map (fun r => c :: r)
  | c1 :: c2 :: rest, args =>
    if c1 = '%' ∧ c2 = 's' then
      match args with
      | some a :: args' => (formatChars rest args').map (fun r => a ++ r)
      | _ => none
    else
      (formatChars (c2 :: rest) args).map (fun r => c1 :: r)

/-- One `printf(format, args...)` call: the text it writes to standard
output, or `none` when a `%s` directive received a null argument. -/
def printfCall (f : String) (args : List (Option String)) : Option String :=
  (formatChars f.data (args.map (fun a => a.map String.data))).map String.mk

/-- Format string of `main.cpp` line 6. -/
def fmtPackage : String := "package %s\n"

/-- Format string of `main.cpp` line 7. -/
def fmtSha : String := "git sha = %s\n"

/-- Format string of `main.cpp` line 8 (with the source's misspelling). -/
def fmtDescription : String := "git decription = %s\n"

/-- The text written to standard output by the three `printf` calls of
`main.cpp` lines 6–8 (the spec's `report()` operation), as a function of
the `Version` value; `none` when some call received a null field. -/
def report (v : Version) : Option String :=
  (printfCall fmtPackage [v.package]).bind (fun l1 =>
    (printfCall fmtSha [v.git_sha1]).bind (fun l2 =>
      (printfCall fmtDescription [v.git_description]).map (fun l3 =>
        l1 ++ l2 ++ l3)))

/-- Process state: the `Version` value in memory and the bytes written to
standard output so far. -/
structure PState where
  version : Version
  out : String

/-- One `printf` call executed against the process state: appends the
formatted text to standard output; the state's `Version` value is not
touched (the source object is `const` and `printf` only reads it). -/
def printfExec (f : String) (args : List (Option String)) (st : PState) :
    Option PState :=
  (printfCall f args).map (fun s => PState.mk st.version (st.out ++ s))

/-- The three `printf` calls of `main.cpp` lines 6–8 run in order against
the process state, each reading the field it prints from the state at the
time of the call. -/
def reportExec (st : PState) : Option PState :=
  (printfExec fmtPackage [st.version.package] st).bind (fun st1 =>
    (printfExec fmtSha [st1.version.git_sha1] st1).bind (fun st2 =>
      printfExec fmtDescription [st2.version.git_description] st2))

/-- The whole program (`main.cpp` lines 4–9): construct the `Version`
value from the build-time values, run the three `printf` calls from an
empty output stream, return exit code 0.  `argc` and `argv` are the
command-line surface; the body never reads them. -/
def mainRun (b : BuildValues) (argc : Nat) (argv : List String) :
    Option PState × Int :=
  (reportExec (PState.mk (constructVersion b) ""), 0)

/-- The lines of a character stream: maximal `'\n'`-terminated segments,
plus a final unterminated segment when the stream does not end in a
newline. -/
def splitLines : List Char → List (List Char)
  | [] => []
  | c :: cs =>
    if c = '\n' then [] :: splitLines cs
    else
      match splitLines cs with
      | [] => [[c]]
      | l :: ls => (c :: l) :: ls

/-- The lines of a piece of text written to standard output. -/
def linesOf (s : String) : List String :=
  (splitLines s.data).map String.mk

/-- The build-time values of the spec's round-trip scenario. -/
def demoBuild : BuildValues :=
  { package := some "demo-pkg"
    git_sha1 := some "abc1234"
    git_description := some "v1.2.0-3-gabc1234" }

/-- The `Version` value of the spec's round-trip scenario. -/
def demoVersion : Version :=
  { package := some "demo-pkg"
    git_sha1 := some "abc1234"
    git_description := some "v1.2.0-3-gabc1234" }

/-- The standard output of the spec's round-trip scenario. -/
def demoOut : String :=
  "package demo-pkg\ngit sha = abc1234\ngit decription = v1.2.0-3-gabc1234\n"

/-! Helper lemmas about the formatting model. -/

theorem formatChars_pct_some (rest : List Char) (a : List Char)
    (args : List (Option (List Char))) :
    formatChars ('%' :: 's' :: rest) (some a :: args) =
      (formatChars rest args).map (fun r => a ++ r) := by
  simp [formatChars]

theorem formatChars_pct_none (rest : List Char) (args : List (Option (List Char))) :
    formatChars ('%' :: 's' :: rest) (none :: args) = none := by
  simp [formatChars]

theorem formatChars_cons_ne (c : Char) (rest : List Char)
    (args : List (Option (List Char))) (h : ¬(c = '%' ∧ rest.head? = some 's')) :
    formatChars (c :: rest) args =
      (formatChars rest args).map (fun r => c :: r) := by
  match rest with
  | [] => simp [formatChars]
  | c2 :: rest' =>
    have h2 : ¬(c = '%' ∧ c2 = 's') := by simpa using h
    simp only [formatChars, if_neg h2]

theorem formatChars_lit (lit : List Char) (h : '%' ∉ lit) (rest : List Char)
    (args : List (Option (List Char))) :
    formatChars (lit ++ rest) args =
      (formatChars rest args).map (fun r => lit ++ r) := by
  induction lit with
  | nil => simp
  | cons c cs ih =>
    have hc : c ≠ '%' := fun hh => h (hh ▸ List.mem_cons_self c cs)
    have hcs : '%' ∉ cs := fun hh => h (List.mem_cons_of_mem c hh)
    rw [List.cons_append, formatChars_cons_ne c (cs ++ rest) args (by simp [hc]),
      ih hcs]
    cases formatChars rest args <;> simp

theorem printfCall_sub (f pre : String) (h : f.data = pre.data ++ '%' :: 's' :: ['\n'])
    (hpre : '%' ∉ pre.data) (a : String) :
    printfCall f [some a] = some (pre ++ a ++ "\n") := by
  obtain ⟨la⟩ := a
  obtain ⟨lp⟩ := pre
  simp only [String.data] at h hpre
  have key : formatChars (lp ++ '%' :: 's' :: ['\n']) [some la] =
      some (lp ++ (la ++ ['\n'])) := by
    rw [formatChars_lit lp hpre _ _, formatChars_pct_some]
    rfl
  show (formatChars f.data [some la]).map String.mk =
    some (String.mk lp ++ String.mk la ++ "\n")
  rw [h, key]
  show some (String.mk (lp ++ (la ++ ['\n']))) =
    some (String.mk (lp ++ la ++ ['\n']))
  rw [List.append_assoc]

theorem printfCall_sub_none (f pre : String)
    (h : f.data = pre.data ++ '%' :: 's' :: ['\n']) (hpre : '%' ∉ pre.data) :
    printfCall f [none] = none := by
  obtain ⟨lp⟩ := pre
  simp only [String.data] at h hpre
  have key : formatChars (lp ++ '%' :: 's' :: ['\n']) [none] = none := by
    rw [formatChars_lit lp hpre _ _, formatChars_pct_none]
    rfl
  show (formatChars f.data [none]).map String.mk = none
  rw [h, key]
  rfl

theorem printfCall_fmtPackage (a : String) :
    printfCall fmtPackage [some a] = some ("package " ++ a ++ "\n") :=
  printfCall_sub fmtPackage "package " rfl (by decide) a

theorem printfCall_fmtSha (a : String) :
    printfCall fmtSha [some a] = some ("git sha = " ++ a ++ "\n") :=
  printfCall_sub fmtSha "git sha = " rfl (by decide) a

theorem printfCall_fmtDescription (a : String) :
    printfCall fmtDescription [some a] = some ("git decription = " ++ a ++ "\n") :=
  printfCall_sub fmtDescription "git decription = " rfl (by decide) a

theorem report_some (p s d : String) :
    report ⟨some p, some s, some d⟩ =
      some ("package " ++ p ++ "\n" ++ "git sha = " ++ s ++ "\n" ++
        "git decription = " ++ d ++ "\n") := by
  simp only [report, printfCall_fmtPackage, printfCall_fmtSha, printfCall_fmtDescription,
    Option.some_bind, Option.map_some', String.append_assoc]

theorem reportExec_eq (st : PState) :
    reportExec st =
      (report st.version).map (fun o => PState.mk st.version (st.out ++ o)) := by
  simp only [reportExec, printfExec, report]
  cases h1 : printfCall fmtPackage [st.version.package] with
  | none => rfl
  | some l1 =>
    simp only [Option.map_some', Option.some_bind]
    cases h2 : printfCall fmtSha [st.version.git_sha1] with
    | none => rfl
    | some l2 =>
      simp only [Option.map_some', Option.some_bind]
      cases h3 : printfCall fmtDescription [st.version.git_description] with
      | none => rfl
      | some l3 =>
        simp only [Option.map_some', String.append_assoc]

theorem str_empty_append (x : String) : "" ++ x = x := by
  obtain ⟨l⟩ := x
  rfl

theorem mainRun_out (b : BuildValues) (argc : Nat) (argv : List String) :
    ((mainRun b argc argv).1).map PState.out =
      report (Version.mk b.package b.git_sha1 b.git_description) := by
  show (reportExec (PState.mk (constructVersion b) "")).map PState.out =
    report (Version.mk b.package b.git_sha1 b.git_description)
  rw [reportExec_eq]
  show ((report (Version.mk b.package b.git_sha1 b.git_description)).map
      (fun o => PState.mk (constructVersion b) ("" ++ o))).map PState.out =
    report (Version.mk b.package b.git_sha1 b.git_description)
  cases ho : report (Version.mk b.package b.git_sha1 b.git_description) with
  | none => rfl
  | some o =>
    simp only [Option.map_some']
    show some ("" ++ o) = some o
    rw [str_empty_append]

theorem reportExec_version_eq (st st' : PState) (h : reportExec st = some st') :
    st'.version = st.version := by
  rw [reportExec_eq] at h
  cases ho : report st.version with
  | none => rw [ho] at h; simp at h
  | some o =>
    rw [ho] at h
    simp only [Option.map_some', Option.some.injEq] at h
    rw [← h]

theorem splitLines_append_nl (l : List Char) (h : '\n' ∉ l) (rest : List Char) :
    splitLines (l ++ '\n' :: rest) = l :: splitLines rest := by
  induction l with
  | nil => simp [splitLines]
  | cons c cs ih =>
    have hc : c ≠ '\n' := fun hh => h (hh ▸ List.mem_cons_self c cs)
    have hcs : '\n' ∉ cs := fun hh => h (List.mem_cons_of_mem c hh)
    rw [List.cons_append]
    simp only [splitLines, if_neg hc, ih hcs]

theorem splitLines_two (l1 l2 : List Char) (h1 : '\n' ∉ l1) (h2 : '\n' ∉ l2)
    (rest : List Char) :
    splitLines (l1 ++ (l2 ++ '\n' :: rest)) = (l1 ++ l2) :: splitLines rest := by
  rw [← List.append_assoc]
  exact splitLines_append_nl (l1 ++ l2)
    (fun hm => by
      rcases List.mem_append.mp hm with hma | hmb
      · exact h1 hma
      · exact h2 hmb)
    rest

theorem linesOf_output (p s d : String) (hp : '\n' ∉ p.data) (hs : '\n' ∉ s.data)
    (hd : '\n' ∉ d.data) :
    linesOf ("package " ++ p ++ "\n" ++ "git sha = " ++ s ++ "\n" ++
        "git decription = " ++ d ++ "\n") =
      ["package " ++ p, "git sha = " ++ s, "git decription = " ++ d] := by
  have hnl : ("\n" : String).data = ['\n'] := rfl
  have hdata : ("package " ++ p ++ "\n" ++ "git sha = " ++ s ++ "\n" ++
      "git decription = " ++ d ++ "\n").data =
      ("package " : String).data ++ (p.data ++ '\n' ::
        (("git sha = " : String).data ++ (s.data ++ '\n' ::
          (("git decription = " : String).data ++ (d.data ++ '\n' :: []))))) := by
    simp only [String.data_append, hnl, List.append_assoc, List.singleton_append,
      List.cons_append, List.nil_append]
  simp only [linesOf, hdata]
  rw [splitLines_two ("package " : String).data p.data (by decide) hp,
    splitLines_two ("git sha = " : String).data s.data (by decide) hs,
    splitLines_two ("git decription = " : String).data d.data (by decide) hd]
  simp only [splitLines, List.map_cons, List.map_nil]
  obtain ⟨lp⟩ := p
  obtain ⟨ls⟩ := s
  obtain ⟨ld⟩ := d
  rfl

/-! The claims. -/

/-- Claim C1: for every triple of field values (package, revisionHash,
revisionDescription), running the program writes to standard output exactly
the three newline-terminated lines `package <package>`,
`git sha = <revisionHash>`, `git decription = <revisionDescription>`, in
that fixed order, with those exact literal label texts (misspelling
preserved). -/
theorem claim1_exact_output (p s d : String) (argc : Nat) (argv : List String) :
    ((mainRun (BuildValues.mk (some p) (some s) (some d)) argc argv).1).map
        PState.out =
      some ("package " ++ p ++ "\n" ++ "git sha = " ++ s ++ "\n" ++
        "git decription = " ++ d ++ "\n") := by
  rw [mainRun_out]
  exact report_some p s d

/-- Claim C2: constructing the `Version` value with the field values
("demo-pkg", "abc1234", "v1.2.0-3-gabc1234") and running the three output
calls produces exactly
"package demo-pkg\ngit sha = abc1234\ngit decription = v1.2.0-3-gabc1234\n". -/
theorem claim2_round_trip :
    report (constructVersion demoBuild) =
      some "package demo-pkg\ngit sha = abc1234\ngit decription = v1.2.0-3-gabc1234\n" :=
  rfl

/-- Claim C3: for every two invocations with any command-line argument
counts and vectors and the same build-time field values, both invocations
produce identical results (standard output and final state) and both
return exit code 0: the program's behaviour does not depend on `argc` or
`argv`. -/
theorem claim3_args_ignored (b : BuildValues) (argc1 : Nat) (argv1 : List String)
    (argc2 : Nat) (argv2 : List String) :
    mainRun b argc1 argv1 = mainRun b argc2 argv2 ∧
      (mainRun b argc1 argv1).2 = 0 :=
  ⟨rfl, rfl⟩

/-- Claim C4: the process exit status is 0 in all scenarios: for every
field values (empty strings and even null fields included) and every
command-line arguments, `main` returns 0 unconditionally, regardless of
the outcome of the output writes. -/
theorem claim4_exit_code_zero (b : BuildValues) (argc : Nat) (argv : List String) :
    (mainRun b argc argv).2 = 0 :=
  rfl

/-- Claim C5: for every process state, a successful run of the three output
calls leaves the `Version` value unchanged, and a second run from the
resulting state succeeds and emits exactly the same text again: the
operation is idempotent on the instance and its per-call output. -/
theorem claim5_report_idempotent (st st' : PState) (h : reportExec st = some st') :
    st'.version = st.version ∧
      ∃ o, report st.version = some o ∧ st'.out = st.out ++ o ∧
        reportExec st' = some (PState.mk st'.version (st'.out ++ o)) := by
  rw [reportExec_eq] at h
  cases ho : report st.version with
  | none => rw [ho] at h; simp at h
  | some o =>
    rw [ho] at h
    simp only [Option.map_some', Option.some.injEq] at h
    subst h
    refine ⟨rfl, o, rfl, rfl, ?_⟩
    rw [reportExec_eq]
    show (report st.version).map
        (fun o2 => PState.mk st.version (st.out ++ o ++ o2)) = _
    rw [ho]
    rfl

/-- Witness for C5 at the round-trip values. -/
theorem claim5_report_idempotent_witness :
    (PState.mk demoVersion demoOut).version = (PState.mk demoVersion "").version ∧
      ∃ o, report (PState.mk demoVersion "").version = some o ∧
        (PState.mk demoVersion demoOut).out = (PState.mk demoVersion "").out ++ o ∧
        reportExec (PState.mk demoVersion demoOut) =
          some (PState.mk (PState.mk demoVersion demoOut).version
            ((PState.mk demoVersion demoOut).out ++ o)) :=
  claim5_report_idempotent (PState.mk demoVersion "") (PState.mk demoVersion demoOut)
    (by rfl)

/-- Counterexample to Claim C6 as stated: the claim quantifies over every
field values, but a field value containing a newline character yields more
than three lines; with package "a\nb" the output has four lines. -/
theorem claim6_counterexample :
    report (Version.mk (some "a\nb") (some "c") (some "d")) =
        some "package a\nb\ngit sha = c\ngit decription = d\n" ∧
      (linesOf "package a\nb\ngit sha = c\ngit decription = d\n").length = 4 :=
  ⟨rfl, rfl⟩

/-- Claim C6, amended: for every field values that contain no newline
character, the program's complete standard output consists of exactly
three lines, in the fixed order: the package line, then the sha line, then
the description line. -/
theorem claim6_three_lines (p s d : String) (argc : Nat) (argv : List String)
    (hp : '\n' ∉ p.data) (hs : '\n' ∉ s.data) (hd : '\n' ∉ d.data) :
    ∃ st', (mainRun (BuildValues.mk (some p) (some s) (some d)) argc argv).1 =
        some st' ∧
      linesOf st'.out =
        ["package " ++ p, "git sha = " ++ s, "git decription = " ++ d] := by
  have h := mainRun_out (BuildValues.mk (some p) (some s) (some d)) argc argv
  rw [show Version.mk (BuildValues.mk (some p) (some s) (some d)).package
      (BuildValues.mk (some p) (some s) (some d)).git_sha1
      (BuildValues.mk (some p) (some s) (some d)).git_description =
      Version.mk (some p) (some s) (some d) from rfl, report_some] at h
  cases hm : (mainRun (BuildValues.mk (some p) (some s) (some d)) argc argv).1 with
  | none => rw [hm] at h; simp at h
  | some st' =>
    rw [hm] at h
    simp only [Option.map_some', Option.some.injEq] at h
    exact ⟨st', rfl, by rw [h]; exact linesOf_output p s d hp hs hd⟩

/-- Witness for the amended C6 at the round-trip values. -/
theorem claim6_three_lines_witness :
    ∃ st', (mainRun (BuildValues.mk (some "demo-pkg") (some "abc1234")
        (some "v1.2.0-3-gabc1234")) 0 []).1 = some st' ∧
      linesOf st'.out =
        ["package " ++ "demo-pkg", "git sha = " ++ "abc1234",
          "git decription = " ++ "v1.2.0-3-gabc1234"] :=
  claim6_three_lines "demo-pkg" "abc1234" "v1.2.0-3-gabc1234" 0 []
    (by decide) (by decide) (by decide)

/-- Claim C7: the `Version` value's three fields are read-only for the
lifetime of the process: no output call mutates the instance it reads, and
across a whole run the final state still holds exactly the value
constructed once at start. -/
theorem claim7_fields_read_only :
    (∀ (f : String) (args : List (Option String)) (st st'' : PState),
        printfExec f args st = some st'' → st''.version = st.version) ∧
      ∀ (b : BuildValues) (argc : Nat) (argv : List String) (st' : PState),
        (mainRun b argc argv).1 = some st' → st'.version = constructVersion b := by
  constructor
  · intro f args st st'' h
    cases hc : printfCall f args with
    | none =>
      simp only [printfExec, hc, Option.map_none'] at h
      exact Option.noConfusion h
    | some sOut =>
      simp only [printfExec, hc, Option.map_some', Option.some.injEq] at h
      rw [← h]
  · intro b argc argv st' h
    exact reportExec_version_eq (PState.mk (constructVersion b) "") st' h

/-- Witness for C7: one concrete output call and one concrete whole run,
both leaving the constructed value in place. -/
theorem claim7_fields_read_only_witness :
    (PState.mk demoVersion ("" ++ "package demo-pkg\n")).version =
        (PState.mk demoVersion "").version ∧
      (PState.mk (constructVersion demoBuild) demoOut).version =
        constructVersion demoBuild :=
  ⟨claim7_fields_read_only.1 fmtPackage [some "demo-pkg"] (PState.mk demoVersion "")
      (PState.mk demoVersion ("" ++ "package demo-pkg\n")) (by rfl),
    claim7_fields_read_only.2 demoBuild 0 []
      (PState.mk (constructVersion demoBuild) demoOut) (by rfl)⟩

/-- Claim C8: construction of the `Version` value takes no caller-supplied
arguments and never fails: it is a total function of the build-time values
alone and populates all three fields with them. -/
theorem claim8_construction_total (b : BuildValues) :
    (constructVersion b).package = b.package ∧
      (constructVersion b).git_sha1 = b.git_sha1 ∧
      (constructVersion b).git_description = b.git_description :=
  ⟨rfl, rfl, rfl⟩

/-- Claim C9: under the precondition that the three fields are non-null
text values, every output write is well-defined: each of the three
formatted output calls, and the whole output sequence, stays out of the
embedding's error branch. -/
theorem claim9_nonnull_no_error (v : Version) (p s d : String)
    (hp : v.package = some p) (hs : v.git_sha1 = some s)
    (hd : v.git_description = some d) :
    (∃ o1, printfCall fmtPackage [v.package] = some o1) ∧
      (∃ o2, printfCall fmtSha [v.git_sha1] = some o2) ∧
      (∃ o3, printfCall fmtDescription [v.git_description] = some o3) ∧
      ∃ o, report v = some o := by
  obtain ⟨vp, vs, vd⟩ := v
  simp only at hp hs hd
  subst hp
  subst hs
  subst hd
  rw [report_some]
  exact ⟨⟨_, printfCall_fmtPackage p⟩, ⟨_, printfCall_fmtSha s⟩,
    ⟨_, printfCall_fmtDescription d⟩, _, rfl⟩

/-- Witness for C9 at the round-trip values. -/
theorem claim9_nonnull_no_error_witness :
    (∃ o1, printfCall fmtPackage [demoVersion.package] = some o1) ∧
      (∃ o2, printfCall fmtSha [demoVersion.git_sha1] = some o2) ∧
      (∃ o3, printfCall fmtDescription [demoVersion.git_description] = some o3) ∧
      ∃ o, report demoVersion = some o :=
  claim9_nonnull_no_error demoVersion "demo-pkg" "abc1234" "v1.2.0-3-gabc1234"
    rfl rfl rfl

/-- Claim C10: each field is passed as a `%s` argument rather than as a
format string, so its text is spliced into the output verbatim: for every
argument value — in particular one containing `%` characters — each of the
three output calls emits exactly its label, the argument's text unchanged,
and a newline. -/
theorem claim10_fields_verbatim (a : String) :
    printfCall fmtPackage [some a] = some ("package " ++ a ++ "\n") ∧
      printfCall fmtSha [some a] = some ("git sha = " ++ a ++ "\n") ∧
      printfCall fmtDescription [some a] = some ("git decription = " ++ a ++ "\n") :=
  ⟨printfCall_fmtPackage a, printfCall_fmtSha a, printfCall_fmtDescription a⟩

end VersionReport
